import Mathlib

set_option maxHeartbeats 1000000

/-!
Verification development for the persistence core of the financial
forecasting and risk-analytics engine (src/src/models.py, src/src/database.py,
src/src/db_init.py), as a shallow embedding: the relational store is a record
of row lists plus the set of created tables, and every operation of the core
is a Lean function over that state.  SQL float and JSON columns carry no
weight in any property below, so they are embedded as integers and opaque
strings respectively; timestamps are abstract `Nat` clock readings.
-/

namespace FinRisk

/-- `UserRole` enumeration from models.py. -/
inductive UserRole where
  | admin
  | analyst
  | viewer
  deriving DecidableEq, Repr

/-- `ModelType` enumeration from models.py. -/
inductive ModelType where
  | linear_regression
  | ridge_regression
  | lasso_regression
  | arima
  | sarima
  deriving DecidableEq, Repr

/-- `ForecastType` enumeration from models.py. -/
inductive ForecastType where
  | revenue
  | expense
  | cash_flow
  deriving DecidableEq, Repr

/-- A row of the `users` table (models.py `User`). -/
structure UserRow where
  id : String
  username : String
  email : String
  hashed_password : String
  full_name : Option String
  role : UserRole
  is_active : Bool
  created_at : Nat
  updated_at : Nat
  deriving DecidableEq, Repr

/-- A row of the `data_uploads` table (models.py `DataUpload`);
`user_id` is a foreign key to `users.id` with ON DELETE CASCADE. -/
structure DataUploadRow where
  id : String
  user_id : String
  filename : String
  data_type : String
  row_count : Nat
  status : String
  error_message : Option String
  schema_info : Option String
  created_at : Nat
  updated_at : Nat
  deriving DecidableEq, Repr

/-- A row of the `timeseries_data` table (models.py `TimeSeriesData`);
`data_upload_id` is a foreign key to `data_uploads.id` with ON DELETE CASCADE. -/
structure TimeSeriesRow where
  id : String
  data_upload_id : String
  timestamp : Nat
  value : Int
  category : String
  attributes : Option String
  created_at : Nat
  deriving DecidableEq, Repr

/-- A row of the `trained_models` table (models.py `TrainedModel`);
`user_id` is a foreign key to `users.id` with ON DELETE CASCADE.
`version` has column default 1; the table declares only non-unique
indexes in `__table_args__`. -/
structure TrainedModelRow where
  id : String
  user_id : String
  model_name : String
  model_type : ModelType
  forecast_type : ForecastType
  version : Int
  model_path : String
  mae : Option Int
  rmse : Option Int
  r2_score : Option Int
  mape : Option Int
  training_data_count : Option Nat
  model_params : Option String
  is_active : Bool
  created_at : Nat
  updated_at : Nat
  deriving DecidableEq, Repr

/-- A row of the `forecasts` table (models.py `Forecast`);
`model_id` is a foreign key to `trained_models.id` with ON DELETE CASCADE. -/
structure ForecastRow where
  id : String
  model_id : String
  forecast_date : Nat
  predicted_value : Int
  lower_confidence_interval : Option Int
  upper_confidence_interval : Option Int
  actual_value : Option Int
  forecast_metadata : Option String
  created_at : Nat
  deriving DecidableEq, Repr

/-- A row of the `risk_metrics` table (models.py `RiskMetrics`);
`model_id` is a foreign key to `trained_models.id` with ON DELETE CASCADE.
The `sharpe` field embeds the source's sharpe-ratio column. -/
structure RiskMetricsRow where
  id : String
  model_id : String
  calculation_date : Nat
  volatility : Option Int
  var_95 : Option Int
  var_99 : Option Int
  cvar_95 : Option Int
  cvar_99 : Option Int
  sharpe : Option Int
  correlation_data : Option String
  scenario_data : Option String
  created_at : Nat
  deriving DecidableEq, Repr

/-- A row of the `kpi_reports` table (models.py `KPIReport`);
`model_id` is a foreign key to `trained_models.id` with ON DELETE CASCADE. -/
structure KPIReportRow where
  id : String
  model_id : String
  report_date : Nat
  report_period_start : Nat
  report_period_end : Nat
  revenue_growth_rate : Option Int
  operating_margin : Option Int
  net_margin : Option Int
  forecast_accuracy : Option Int
  budget_variance : Option Int
  risk_adjusted_return : Option Int
  report_data : Option String
  created_at : Nat
  deriving DecidableEq, Repr

/-- The relational store: the set of created tables plus the rows of each
of the seven entity tables declared in models.py. -/
structure Store where
  tables : List String
  users : List UserRow
  data_uploads : List DataUploadRow
  timeseries_data : List TimeSeriesRow
  trained_models : List TrainedModelRow
  forecasts : List ForecastRow
  risk_metrics : List RiskMetricsRow
  kpi_reports : List KPIReportRow
  deriving DecidableEq, Repr

/-- A store with no tables and no rows. -/
def emptyStore : Store :=
  { tables := [], users := [], data_uploads := [], timeseries_data := []
    trained_models := [], forecasts := [], risk_metrics := [], kpi_reports := [] }

/-- Errors a store operation can surface. -/
inductive DbError where
  | uniqueViolation
  | foreignKeyViolation
  | operationalError
  deriving DecidableEq, Repr

/-- The seven table names registered on `Base.metadata` by models.py. -/
def requiredTables : List String :=
  ["users", "data_uploads", "timeseries_data", "trained_models",
   "forecasts", "risk_metrics", "kpi_reports"]

/-- `CREATE TABLE IF NOT EXISTS`: add the table name if absent. -/
def ensureTable (t : String) (ts : List String) : List String :=
  if t ∈ ts then ts else ts ++ [t]

/-- `Base.metadata.create_all`: every registered table is created if absent. -/
def createAllTables (ts : List String) : List String :=
  requiredTables.foldl (fun acc t => ensureTable t acc) ts

/-- database.py `init_db`: create all registered tables if absent;
existing rows are untouched. -/
def initDb (s : Store) : Store :=
  { s with tables := createAllTables s.tables }

/-- database.py `drop_db` (`Base.metadata.drop_all`): every registered table
is dropped, and with it all of its rows. -/
def dropDb (s : Store) : Store :=
  { tables := s.tables.filter (fun t => !(requiredTables.contains t))
    users := [], data_uploads := [], timeseries_data := []
    trained_models := [], forecasts := [], risk_metrics := [], kpi_reports := [] }

/-- Python's `str.lower` applied characterwise; it agrees with
`Char.toLower` on the ASCII confirmation tokens the reset gate compares. -/
def strLower (s : String) : String := String.mk (s.data.map Char.toLower)

/-- db_init.py `reset_database`: reads the interactive confirmation `input`,
lowercases it and compares with "yes"; on a match it runs `drop_db` then
`init_db` and returns True, otherwise it logs a cancellation and returns
False leaving the store untouched. -/
def resetDatabase (input : String) (s : Store) : Store × Bool :=
  if strLower input == "yes" then (initDb (dropDb s), true)
  else (s, false)

deriving instance DecidableEq for Except

/-- The environment of db_init.py `check_database_connection`: the outcome of
`engine.connect()` and of executing the trivial `SELECT 1` query on it. -/
structure ProbeEnv where
  connect : Except DbError Unit
  execute : Except DbError Unit
  deriving DecidableEq, Repr

/-- db_init.py `check_database_connection`: acquire a raw connection and run
`SELECT 1` inside a try block; any raised error is caught and turned into
the return value False, success returns True. -/
def checkDatabaseConnection (env : ProbeEnv) : Bool :=
  match (do env.connect; env.execute : Except DbError Unit) with
  | .ok _ => true
  | .error _ => false

/-- INSERT into `users`: the store rejects a duplicate primary key and, by
the `unique=True` constraints models.py places on `username` and `email`,
a duplicate username or email. -/
def insertUser (r : UserRow) (s : Store) : Except DbError Store :=
  if s.users.any (fun u => u.id == r.id) then .error .uniqueViolation
  else if s.users.any (fun u => u.username == r.username) then .error .uniqueViolation
  else if s.users.any (fun u => u.email == r.email) then .error .uniqueViolation
  else .ok { s with users := s.users ++ [r] }

/-- INSERT into `data_uploads`: duplicate primary keys are rejected and the
`user_id` foreign key must reference an existing user (foreign keys are
enforced: database.py turns `PRAGMA foreign_keys=ON` on every connection). -/
def insertDataUpload (r : DataUploadRow) (s : Store) : Except DbError Store :=
  if s.data_uploads.any (fun d => d.id == r.id) then .error .uniqueViolation
  else if !(s.users.any (fun u => u.id == r.user_id)) then .error .foreignKeyViolation
  else .ok { s with data_uploads := s.data_uploads ++ [r] }

/-- INSERT into `timeseries_data`: primary key unique, `data_upload_id`
must reference an existing upload. -/
def insertTimeSeries (r : TimeSeriesRow) (s : Store) : Except DbError Store :=
  if s.timeseries_data.any (fun t => t.id == r.id) then .error .uniqueViolation
  else if !(s.data_uploads.any (fun d => d.id == r.data_upload_id)) then .error .foreignKeyViolation
  else .ok { s with timeseries_data := s.timeseries_data ++ [r] }

/-- INSERT into `trained_models`: primary key unique, `user_id` must
reference an existing user.  models.py declares no other uniqueness for this
table (its `__table_args__` holds only non-unique indexes). -/
def insertTrainedModel (r : TrainedModelRow) (s : Store) : Except DbError Store :=
  if s.trained_models.any (fun m => m.id == r.id) then .error .uniqueViolation
  else if !(s.users.any (fun u => u.id == r.user_id)) then .error .foreignKeyViolation
  else .ok { s with trained_models := s.trained_models ++ [r] }

/-- INSERT into `forecasts`: primary key unique, `model_id` must reference
an existing trained model. -/
def insertForecast (r : ForecastRow) (s : Store) : Except DbError Store :=
  if s.forecasts.any (fun f => f.id == r.id) then .error .uniqueViolation
  else if !(s.trained_models.any (fun m => m.id == r.model_id)) then .error .foreignKeyViolation
  else .ok { s with forecasts := s.forecasts ++ [r] }

/-- INSERT into `risk_metrics`: primary key unique, `model_id` must
reference an existing trained model. -/
def insertRiskMetrics (r : RiskMetricsRow) (s : Store) : Except DbError Store :=
  if s.risk_metrics.any (fun m => m.id == r.id) then .error .uniqueViolation
  else if !(s.trained_models.any (fun m => m.id == r.model_id)) then .error .foreignKeyViolation
  else .ok { s with risk_metrics := s.risk_metrics ++ [r] }

/-- INSERT into `kpi_reports`: primary key unique, `model_id` must
reference an existing trained model. -/
def insertKPIReport (r : KPIReportRow) (s : Store) : Except DbError Store :=
  if s.kpi_reports.any (fun k => k.id == r.id) then .error .uniqueViolation
  else if !(s.trained_models.any (fun m => m.id == r.model_id)) then .error .foreignKeyViolation
  else .ok { s with kpi_reports := s.kpi_reports ++ [r] }

/-- Run an INSERT into `users` the way a session does: on a constraint
violation the unit of work is rolled back, so the store is unchanged and
the insertion reports failure. -/
def runInsertUser (r : UserRow) (s : Store) : Store × Bool :=
  match insertUser r s with
  | .ok s1 => (s1, true)
  | .error _ => (s, false)

/-- DELETE FROM `users` WHERE id = uid, with the ON DELETE CASCADE chains
declared in models.py: the user's `data_uploads` and `trained_models` rows
are removed, and with them the `timeseries_data` rows of the removed uploads
and the `forecasts`, `risk_metrics` and `kpi_reports` rows of the removed
models. -/
def deleteUser (uid : String) (s : Store) : Store :=
  { s with
    users := s.users.filter (fun u => !(u.id == uid))
    data_uploads := s.data_uploads.filter (fun d => !(d.user_id == uid))
    timeseries_data := s.timeseries_data.filter (fun t =>
      !(s.data_uploads.any (fun d => d.user_id == uid && d.id == t.data_upload_id)))
    trained_models := s.trained_models.filter (fun m => !(m.user_id == uid))
    forecasts := s.forecasts.filter (fun f =>
      !(s.trained_models.any (fun m => m.user_id == uid && m.id == f.model_id)))
    risk_metrics := s.risk_metrics.filter (fun r =>
      !(s.trained_models.any (fun m => m.user_id == uid && m.id == r.model_id)))
    kpi_reports := s.kpi_reports.filter (fun k =>
      !(s.trained_models.any (fun m => m.user_id == uid && m.id == k.model_id))) }

/-- DELETE FROM `data_uploads` WHERE id = did; its `timeseries_data`
children are removed by the cascade. -/
def deleteDataUpload (did : String) (s : Store) : Store :=
  { s with
    data_uploads := s.data_uploads.filter (fun d => !(d.id == did))
    timeseries_data := s.timeseries_data.filter (fun t => !(t.data_upload_id == did)) }

/-- DELETE FROM `trained_models` WHERE id = mid; its `forecasts`,
`risk_metrics` and `kpi_reports` children are removed by the cascade. -/
def deleteTrainedModel (mid : String) (s : Store) : Store :=
  { s with
    trained_models := s.trained_models.filter (fun m => !(m.id == mid))
    forecasts := s.forecasts.filter (fun f => !(f.model_id == mid))
    risk_metrics := s.risk_metrics.filter (fun r => !(r.model_id == mid))
    kpi_reports := s.kpi_reports.filter (fun k => !(k.model_id == mid)) }

/-- DELETE FROM `timeseries_data` WHERE id = tid (childless table). -/
def deleteTimeSeries (tid : String) (s : Store) : Store :=
  { s with timeseries_data := s.timeseries_data.filter (fun t => !(t.id == tid)) }

/-- DELETE FROM `forecasts` WHERE id = fid (childless table). -/
def deleteForecast (fid : String) (s : Store) : Store :=
  { s with forecasts := s.forecasts.filter (fun f => !(f.id == fid)) }

/-- DELETE FROM `risk_metrics` WHERE id = rid (childless table). -/
def deleteRiskMetrics (rid : String) (s : Store) : Store :=
  { s with risk_metrics := s.risk_metrics.filter (fun r => !(r.id == rid)) }

/-- DELETE FROM `kpi_reports` WHERE id = kid (childless table). -/
def deleteKPIReport (kid : String) (s : Store) : Store :=
  { s with kpi_reports := s.kpi_reports.filter (fun k => !(k.id == kid)) }

/-- database.py `get_db`: a unit of work receives a session over the store
and returns its pending state together with whether it committed, or raises.
The scoped acquisition rolls back and re-raises on error and releases the
connection on every exit path; `autocommit=False` means uncommitted writes
are never published.  The result is (caller-visible outcome, persistent
store afterwards, connection released). -/
def getDb (s : Store) (work : Store → Except DbError (Store × Bool)) :
    Except DbError Store × Store × Bool :=
  match work s with
  | .ok (pending, committed) => (.ok pending, if committed then pending else s, true)
  | .error e => (.error e, s, true)

/-- The fixed admin row db_init.py builds: hard-coded username, email and
plaintext password "admin123" fed to the injected hashing capability;
`freshId` is the uuid4 the ORM column default generates and `now` the
creation clock. -/
def adminRow (freshId : String) (hash : String → String) (now : Nat) : UserRow :=
  { id := freshId
    username := "admin"
    email := "admin@financialanalytics.local"
    hashed_password := hash "admin123"
    full_name := some "System Administrator"
    role := .admin
    is_active := true
    created_at := now
    updated_at := now }

/-- db_init.py `create_admin_user`: hash is the injected bcrypt capability,
`commitFails` whether the commit raises an operational error.  The function
looks for an existing user named "admin" and returns it unchanged; otherwise
it builds the fixed admin row and commits it.  Any exception is caught: the
session is rolled back, the failure logged, and None returned (the caught
error is not re-raised); the session is closed in a finally block.  The
result is (caller-visible outcome, persistent store afterwards, session
closed). -/
def createAdminUserRun (freshId : String) (hash : String → String) (now : Nat)
    (commitFails : Bool) (s : Store) :
    Except DbError (Option UserRow) × Store × Bool :=
  match s.users.find? (fun u => u.username == "admin") with
  | some existing => (.ok (some existing), s, true)
  | none =>
    if commitFails then (.ok none, s, true)
    else
      match insertUser (adminRow freshId hash now) s with
      | .ok s1 => (.ok (some (adminRow freshId hash now)), s1, true)
      | .error _ => (.ok none, s, true)

/-- One atomic committed change a session can make against the schema:
a successful INSERT into any table, a DELETE from any table (with its
declared cascades), or a schema lifecycle operation. -/
inductive Step : Store → Store → Prop where
  | insUser {s s1 : Store} (r : UserRow) : insertUser r s = .ok s1 → Step s s1
  | insUpload {s s1 : Store} (r : DataUploadRow) : insertDataUpload r s = .ok s1 → Step s s1
  | insTimeSeries {s s1 : Store} (r : TimeSeriesRow) : insertTimeSeries r s = .ok s1 → Step s s1
  | insModel {s s1 : Store} (r : TrainedModelRow) : insertTrainedModel r s = .ok s1 → Step s s1
  | insForecast {s s1 : Store} (r : ForecastRow) : insertForecast r s = .ok s1 → Step s s1
  | insRisk {s s1 : Store} (r : RiskMetricsRow) : insertRiskMetrics r s = .ok s1 → Step s s1
  | insKPI {s s1 : Store} (r : KPIReportRow) : insertKPIReport r s = .ok s1 → Step s s1
  | delUser (s : Store) (uid : String) : Step s (deleteUser uid s)
  | delUpload (s : Store) (did : String) : Step s (deleteDataUpload did s)
  | delModel (s : Store) (mid : String) : Step s (deleteTrainedModel mid s)
  | delTimeSeries (s : Store) (tid : String) : Step s (deleteTimeSeries tid s)
  | delForecast (s : Store) (fid : String) : Step s (deleteForecast fid s)
  | delRisk (s : Store) (rid : String) : Step s (deleteRiskMetrics rid s)
  | delKPI (s : Store) (kid : String) : Step s (deleteKPIReport kid s)
  | runInit (s : Store) : Step s (initDb s)
  | runDrop (s : Store) : Step s (dropDb s)

/-- A store state the system can reach from the empty store by committed
session steps. -/
inductive Reachable : Store → Prop where
  | init : Reachable emptyStore
  | step {s s1 : Store} : Reachable s → Step s s1 → Reachable s1

/-- No orphaned child rows: every foreign key of every child row references
an existing parent row. -/
def NoOrphans (s : Store) : Prop :=
  (∀ d ∈ s.data_uploads, ∃ u ∈ s.users, u.id = d.user_id) ∧
  (∀ t ∈ s.timeseries_data, ∃ d ∈ s.data_uploads, d.id = t.data_upload_id) ∧
  (∀ m ∈ s.trained_models, ∃ u ∈ s.users, u.id = m.user_id) ∧
  (∀ f ∈ s.forecasts, ∃ m ∈ s.trained_models, m.id = f.model_id) ∧
  (∀ r ∈ s.risk_metrics, ∃ m ∈ s.trained_models, m.id = r.model_id) ∧
  (∀ k ∈ s.kpi_reports, ∃ m ∈ s.trained_models, m.id = k.model_id)

theorem insertUser_ok {r : UserRow} {s s1 : Store} (h : insertUser r s = .ok s1) :
    s1 = { s with users := s.users ++ [r] } := by
  unfold insertUser at h
  split at h
  · exact absurd h (by simp)
  · split at h
    · exact absurd h (by simp)
    · split at h
      · exact absurd h (by simp)
      · exact (Except.ok.injEq _ _).mp h.symm

theorem insertDataUpload_ok {r : DataUploadRow} {s s1 : Store}
    (h : insertDataUpload r s = .ok s1) :
    s.users.any (fun u => u.id == r.user_id) = true ∧
    s1 = { s with data_uploads := s.data_uploads ++ [r] } := by
  unfold insertDataUpload at h
  split at h
  · exact absurd h (by simp)
  · next hfk =>
    split at h
    · exact absurd h (by simp)
    · next hfk2 => exact ⟨by simpa using hfk2, (Except.ok.injEq _ _).mp h.symm⟩

theorem insertTimeSeries_ok {r : TimeSeriesRow} {s s1 : Store}
    (h : insertTimeSeries r s = .ok s1) :
    s.data_uploads.any (fun d => d.id == r.data_upload_id) = true ∧
    s1 = { s with timeseries_data := s.timeseries_data ++ [r] } := by
  unfold insertTimeSeries at h
  split at h
  · exact absurd h (by simp)
  · split at h
    · exact absurd h (by simp)
    · next hfk2 => exact ⟨by simpa using hfk2, (Except.ok.injEq _ _).mp h.symm⟩

theorem insertTrainedModel_ok {r : TrainedModelRow} {s s1 : Store}
    (h : insertTrainedModel r s = .ok s1) :
    s.users.any (fun u => u.id == r.user_id) = true ∧
    s1 = { s with trained_models := s.trained_models ++ [r] } := by
  unfold insertTrainedModel at h
  split at h
  · exact absurd h (by simp)
  · split at h
    · exact absurd h (by simp)
    · next hfk2 => exact ⟨by simpa using hfk2, (Except.ok.injEq _ _).mp h.symm⟩

theorem insertForecast_ok {r : ForecastRow} {s s1 : Store}
    (h : insertForecast r s = .ok s1) :
    s.trained_models.any (fun m => m.id == r.model_id) = true ∧
    s1 = { s with forecasts := s.forecasts ++ [r] } := by
  unfold insertForecast at h
  split at h
  · exact absurd h (by simp)
  · split at h
    · exact absurd h (by simp)
    · next hfk2 => exact ⟨by simpa using hfk2, (Except.ok.injEq _ _).mp h.symm⟩

theorem insertRiskMetrics_ok {r : RiskMetricsRow} {s s1 : Store}
    (h : insertRiskMetrics r s = .ok s1) :
    s.trained_models.any (fun m => m.id == r.model_id) = true ∧
    s1 = { s with risk_metrics := s.risk_metrics ++ [r] } := by
  unfold insertRiskMetrics at h
  split at h
  · exact absurd h (by simp)
  · split at h
    · exact absurd h (by simp)
    · next hfk2 => exact ⟨by simpa using hfk2, (Except.ok.injEq _ _).mp h.symm⟩

theorem insertKPIReport_ok {r : KPIReportRow} {s s1 : Store}
    (h : insertKPIReport r s = .ok s1) :
    s.trained_models.any (fun m => m.id == r.model_id) = true ∧
    s1 = { s with kpi_reports := s.kpi_reports ++ [r] } := by
  unfold insertKPIReport at h
  split at h
  · exact absurd h (by simp)
  · split at h
    · exact absurd h (by simp)
    · next hfk2 => exact ⟨by simpa using hfk2, (Except.ok.injEq _ _).mp h.symm⟩

theorem noOrphans_insertUser {r : UserRow} {s s1 : Store}
    (hok : insertUser r s = .ok s1) (h : NoOrphans s) : NoOrphans s1 := by
  obtain rfl := insertUser_ok hok
  obtain ⟨h1, h2, h3, h4, h5, h6⟩ := h
  refine ⟨?_, h2, ?_, h4, h5, h6⟩
  · intro d hd
    obtain ⟨u, hu, heq⟩ := h1 d hd
    exact ⟨u, List.mem_append_left _ hu, heq⟩
  · intro m hm
    obtain ⟨u, hu, heq⟩ := h3 m hm
    exact ⟨u, List.mem_append_left _ hu, heq⟩

theorem noOrphans_insertDataUpload {r : DataUploadRow} {s s1 : Store}
    (hok : insertDataUpload r s = .ok s1) (h : NoOrphans s) : NoOrphans s1 := by
  obtain ⟨hfk, rfl⟩ := insertDataUpload_ok hok
  obtain ⟨h1, h2, h3, h4, h5, h6⟩ := h
  refine ⟨?_, ?_, h3, h4, h5, h6⟩
  · intro d hd
    rcases List.mem_append.mp hd with hmem | hmem
    · exact h1 d hmem
    · obtain ⟨u, hu, hbeq⟩ := List.any_eq_true.mp hfk
      have hd1 : d = r := by simpa using hmem
      exact ⟨u, hu, by rw [hd1]; exact eq_of_beq hbeq⟩
  · intro t ht
    obtain ⟨d, hd, heq⟩ := h2 t ht
    exact ⟨d, List.mem_append_left _ hd, heq⟩

theorem noOrphans_insertTimeSeries {r : TimeSeriesRow} {s s1 : Store}
    (hok : insertTimeSeries r s = .ok s1) (h : NoOrphans s) : NoOrphans s1 := by
  obtain ⟨hfk, rfl⟩ := insertTimeSeries_ok hok
  obtain ⟨h1, h2, h3, h4, h5, h6⟩ := h
  refine ⟨h1, ?_, h3, h4, h5, h6⟩
  intro t ht
  rcases List.mem_append.mp ht with hmem | hmem
  · exact h2 t hmem
  · obtain ⟨d, hd, hbeq⟩ := List.any_eq_true.mp hfk
    have ht1 : t = r := by simpa using hmem
    exact ⟨d, hd, by rw [ht1]; exact eq_of_beq hbeq⟩

theorem noOrphans_insertTrainedModel {r : TrainedModelRow} {s s1 : Store}
    (hok : insertTrainedModel r s = .ok s1) (h : NoOrphans s) : NoOrphans s1 := by
  obtain ⟨hfk, rfl⟩ := insertTrainedModel_ok hok
  obtain ⟨h1, h2, h3, h4, h5, h6⟩ := h
  refine ⟨h1, h2, ?_, ?_, ?_, ?_⟩
  · intro m hm
    rcases List.mem_append.mp hm with hmem | hmem
    · exact h3 m hmem
    · obtain ⟨u, hu, hbeq⟩ := List.any_eq_true.mp hfk
      have hm1 : m = r := by simpa using hmem
      exact ⟨u, hu, by rw [hm1]; exact eq_of_beq hbeq⟩
  · intro f hf
    obtain ⟨m, hm, heq⟩ := h4 f hf
    exact ⟨m, List.mem_append_left _ hm, heq⟩
  · intro x hx
    obtain ⟨m, hm, heq⟩ := h5 x hx
    exact ⟨m, List.mem_append_left _ hm, heq⟩
  · intro k hk
    obtain ⟨m, hm, heq⟩ := h6 k hk
    exact ⟨m, List.mem_append_left _ hm, heq⟩

theorem noOrphans_insertForecast {r : ForecastRow} {s s1 : Store}
    (hok : insertForecast r s = .ok s1) (h : NoOrphans s) : NoOrphans s1 := by
  obtain ⟨hfk, rfl⟩ := insertForecast_ok hok
  obtain ⟨h1, h2, h3, h4, h5, h6⟩ := h
  refine ⟨h1, h2, h3, ?_, h5, h6⟩
  intro f hf
  rcases List.mem_append.mp hf with hmem | hmem
  · exact h4 f hmem
  · obtain ⟨m, hm, hbeq⟩ := List.any_eq_true.mp hfk
    have hf1 : f = r := by simpa using hmem
    exact ⟨m, hm, by rw [hf1]; exact eq_of_beq hbeq⟩

theorem noOrphans_insertRiskMetrics {r : RiskMetricsRow} {s s1 : Store}
    (hok : insertRiskMetrics r s = .ok s1) (h : NoOrphans s) : NoOrphans s1 := by
  obtain ⟨hfk, rfl⟩ := insertRiskMetrics_ok hok
  obtain ⟨h1, h2, h3, h4, h5, h6⟩ := h
  refine ⟨h1, h2, h3, h4, ?_, h6⟩
  intro x hx
  rcases List.mem_append.mp hx with hmem | hmem
  · exact h5 x hmem
  · obtain ⟨m, hm, hbeq⟩ := List.any_eq_true.mp hfk
    have hx1 : x = r := by simpa using hmem
    exact ⟨m, hm, by rw [hx1]; exact eq_of_beq hbeq⟩

theorem noOrphans_insertKPIReport {r : KPIReportRow} {s s1 : Store}
    (hok : insertKPIReport r s = .ok s1) (h : NoOrphans s) : NoOrphans s1 := by
  obtain ⟨hfk, rfl⟩ := insertKPIReport_ok hok
  obtain ⟨h1, h2, h3, h4, h5, h6⟩ := h
  refine ⟨h1, h2, h3, h4, h5, ?_⟩
  intro k hk
  rcases List.mem_append.mp hk with hmem | hmem
  · exact h6 k hmem
  · obtain ⟨m, hm, hbeq⟩ := List.any_eq_true.mp hfk
    have hk1 : k = r := by simpa using hmem
    exact ⟨m, hm, by rw [hk1]; exact eq_of_beq hbeq⟩

theorem parent_survives_user_filter {uid : String} {xs : List DataUploadRow}
    {d : DataUploadRow} {key : String} (hd : d ∈ xs) (heq : d.id = key)
    (hany : (xs.any (fun x => x.user_id == uid && x.id == key)) = false) :
    d ∈ xs.filter (fun x => !(x.user_id == uid)) := by
  refine List.mem_filter.mpr ⟨hd, ?_⟩
  have hponder : (d.user_id == uid && d.id == key) = false :=
    Bool.eq_false_iff.mpr (List.any_eq_false.mp hany d hd)
  rcases Bool.and_eq_false_iff.mp hponder with hcase | hcase
  · simp [hcase]
  · exact absurd (beq_of_eq heq) (by simp [hcase])

theorem parent_survives_model_filter {uid : String} {xs : List TrainedModelRow}
    {m : TrainedModelRow} {key : String} (hm : m ∈ xs) (heq : m.id = key)
    (hany : (xs.any (fun x => x.user_id == uid && x.id == key)) = false) :
    m ∈ xs.filter (fun x => !(x.user_id == uid)) := by
  refine List.mem_filter.mpr ⟨hm, ?_⟩
  have hponder : (m.user_id == uid && m.id == key) = false :=
    Bool.eq_false_iff.mpr (List.any_eq_false.mp hany m hm)
  rcases Bool.and_eq_false_iff.mp hponder with hcase | hcase
  · simp [hcase]
  · exact absurd (beq_of_eq heq) (by simp [hcase])

theorem noOrphans_deleteUser (uid : String) {s : Store} (h : NoOrphans s) :
    NoOrphans (deleteUser uid s) := by
  obtain ⟨h1, h2, h3, h4, h5, h6⟩ := h
  refine ⟨?_, ?_, ?_, ?_, ?_, ?_⟩
  · intro d hd
    simp only [deleteUser, List.mem_filter, Bool.not_eq_true'] at hd
    obtain ⟨hdm, hne⟩ := hd
    obtain ⟨u, hu, heq⟩ := h1 d hdm
    refine ⟨u, List.mem_filter.mpr ⟨hu, ?_⟩, heq⟩
    simp only [Bool.not_eq_true']
    rw [heq]
    exact hne
  · intro t ht
    simp only [deleteUser, List.mem_filter, Bool.not_eq_true'] at ht
    obtain ⟨htm, hany⟩ := ht
    obtain ⟨d, hd, heq⟩ := h2 t htm
    exact ⟨d, parent_survives_user_filter hd heq hany, heq⟩
  · intro m hm
    simp only [deleteUser, List.mem_filter, Bool.not_eq_true'] at hm
    obtain ⟨hmm, hne⟩ := hm
    obtain ⟨u, hu, heq⟩ := h3 m hmm
    refine ⟨u, List.mem_filter.mpr ⟨hu, ?_⟩, heq⟩
    simp only [Bool.not_eq_true']
    rw [heq]
    exact hne
  · intro f hf
    simp only [deleteUser, List.mem_filter, Bool.not_eq_true'] at hf
    obtain ⟨hfm, hany⟩ := hf
    obtain ⟨m, hm, heq⟩ := h4 f hfm
    exact ⟨m, parent_survives_model_filter hm heq hany, heq⟩
  · intro x hx
    simp only [deleteUser, List.mem_filter, Bool.not_eq_true'] at hx
    obtain ⟨hxm, hany⟩ := hx
    obtain ⟨m, hm, heq⟩ := h5 x hxm
    exact ⟨m, parent_survives_model_filter hm heq hany, heq⟩
  · intro k hk
    simp only [deleteUser, List.mem_filter, Bool.not_eq_true'] at hk
    obtain ⟨hkm, hany⟩ := hk
    obtain ⟨m, hm, heq⟩ := h6 k hkm
    exact ⟨m, parent_survives_model_filter hm heq hany, heq⟩

theorem noOrphans_deleteDataUpload (did : String) {s : Store} (h : NoOrphans s) :
    NoOrphans (deleteDataUpload did s) := by
  obtain ⟨h1, h2, h3, h4, h5, h6⟩ := h
  refine ⟨?_, ?_, h3, h4, h5, h6⟩
  · intro d hd
    simp only [deleteDataUpload, List.mem_filter, Bool.not_eq_true'] at hd
    exact h1 d hd.1
  · intro t ht
    simp only [deleteDataUpload, List.mem_filter, Bool.not_eq_true',
      beq_eq_false_iff_ne, ne_eq] at ht
    obtain ⟨htm, hne⟩ := ht
    obtain ⟨d, hd, heq⟩ := h2 t htm
    refine ⟨d, List.mem_filter.mpr ⟨hd, ?_⟩, heq⟩
    simp only [Bool.not_eq_true', beq_eq_false_iff_ne, ne_eq]
    rw [heq]
    exact hne

theorem noOrphans_deleteTrainedModel (mid : String) {s : Store} (h : NoOrphans s) :
    NoOrphans (deleteTrainedModel mid s) := by
  obtain ⟨h1, h2, h3, h4, h5, h6⟩ := h
  refine ⟨h1, h2, ?_, ?_, ?_, ?_⟩
  · intro m hm
    simp only [deleteTrainedModel, List.mem_filter, Bool.not_eq_true'] at hm
    exact h3 m hm.1
  · intro f hf
    simp only [deleteTrainedModel, List.mem_filter, Bool.not_eq_true',
      beq_eq_false_iff_ne, ne_eq] at hf
    obtain ⟨hfm, hne⟩ := hf
    obtain ⟨m, hm, heq⟩ := h4 f hfm
    refine ⟨m, List.mem_filter.mpr ⟨hm, ?_⟩, heq⟩
    simp only [Bool.not_eq_true', beq_eq_false_iff_ne, ne_eq]
    rw [heq]
    exact hne
  · intro x hx
    simp only [deleteTrainedModel, List.mem_filter, Bool.not_eq_true',
      beq_eq_false_iff_ne, ne_eq] at hx
    obtain ⟨hxm, hne⟩ := hx
    obtain ⟨m, hm, heq⟩ := h5 x hxm
    refine ⟨m, List.mem_filter.mpr ⟨hm, ?_⟩, heq⟩
    simp only [Bool.not_eq_true', beq_eq_false_iff_ne, ne_eq]
    rw [heq]
    exact hne
  · intro k hk
    simp only [deleteTrainedModel, List.mem_filter, Bool.not_eq_true',
      beq_eq_false_iff_ne, ne_eq] at hk
    obtain ⟨hkm, hne⟩ := hk
    obtain ⟨m, hm, heq⟩ := h6 k hkm
    refine ⟨m, List.mem_filter.mpr ⟨hm, ?_⟩, heq⟩
    simp only [Bool.not_eq_true', beq_eq_false_iff_ne, ne_eq]
    rw [heq]
    exact hne

theorem noOrphans_deleteTimeSeries (tid : String) {s : Store} (h : NoOrphans s) :
    NoOrphans (deleteTimeSeries tid s) := by
  obtain ⟨h1, h2, h3, h4, h5, h6⟩ := h
  refine ⟨h1, ?_, h3, h4, h5, h6⟩
  intro t ht
  simp only [deleteTimeSeries, List.mem_filter, Bool.not_eq_true'] at ht
  exact h2 t ht.1

theorem noOrphans_deleteForecast (fid : String) {s : Store} (h : NoOrphans s) :
    NoOrphans (deleteForecast fid s) := by
  obtain ⟨h1, h2, h3, h4, h5, h6⟩ := h
  refine ⟨h1, h2, h3, ?_, h5, h6⟩
  intro f hf
  simp only [deleteForecast, List.mem_filter, Bool.not_eq_true'] at hf
  exact h4 f hf.1

theorem noOrphans_deleteRiskMetrics (rid : String) {s : Store} (h : NoOrphans s) :
    NoOrphans (deleteRiskMetrics rid s) := by
  obtain ⟨h1, h2, h3, h4, h5, h6⟩ := h
  refine ⟨h1, h2, h3, h4, ?_, h6⟩
  intro x hx
  simp only [deleteRiskMetrics, List.mem_filter, Bool.not_eq_true'] at hx
  exact h5 x hx.1

theorem noOrphans_deleteKPIReport (kid : String) {s : Store} (h : NoOrphans s) :
    NoOrphans (deleteKPIReport kid s) := by
  obtain ⟨h1, h2, h3, h4, h5, h6⟩ := h
  refine ⟨h1, h2, h3, h4, h5, ?_⟩
  intro k hk
  simp only [deleteKPIReport, List.mem_filter, Bool.not_eq_true'] at hk
  exact h6 k hk.1

theorem noOrphans_initDb {s : Store} (h : NoOrphans s) : NoOrphans (initDb s) := h

theorem noOrphans_dropDb (s : Store) : NoOrphans (dropDb s) := by
  refine ⟨?_, ?_, ?_, ?_, ?_, ?_⟩ <;> intro x hx <;> simp [dropDb] at hx

theorem noOrphans_emptyStore : NoOrphans emptyStore := by
  refine ⟨?_, ?_, ?_, ?_, ?_, ?_⟩ <;> intro x hx <;> simp [emptyStore] at hx

theorem noOrphans_step {s s1 : Store} (hstep : Step s s1) (h : NoOrphans s) :
    NoOrphans s1 := by
  cases hstep with
  | insUser r hok => exact noOrphans_insertUser hok h
  | insUpload r hok => exact noOrphans_insertDataUpload hok h
  | insTimeSeries r hok => exact noOrphans_insertTimeSeries hok h
  | insModel r hok => exact noOrphans_insertTrainedModel hok h
  | insForecast r hok => exact noOrphans_insertForecast hok h
  | insRisk r hok => exact noOrphans_insertRiskMetrics hok h
  | insKPI r hok => exact noOrphans_insertKPIReport hok h
  | delUser uid => exact noOrphans_deleteUser uid h
  | delUpload did => exact noOrphans_deleteDataUpload did h
  | delModel mid => exact noOrphans_deleteTrainedModel mid h
  | delTimeSeries tid => exact noOrphans_deleteTimeSeries tid h
  | delForecast fid => exact noOrphans_deleteForecast fid h
  | delRisk rid => exact noOrphans_deleteRiskMetrics rid h
  | delKPI kid => exact noOrphans_deleteKPIReport kid h
  | runInit => exact noOrphans_initDb h
  | runDrop => exact noOrphans_dropDb _

theorem noOrphans_reachable {s : Store} (h : Reachable s) : NoOrphans s := by
  induction h with
  | init => exact noOrphans_emptyStore
  | step _ hstep ih => exact noOrphans_step hstep ih

/-- Claim C1: for every child entity with a foreign key to a parent
(DataUpload to User, TimeSeriesData to DataUpload, TrainedModel to User,
Forecast, RiskMetrics and KPIReport to TrainedModel), deleting the parent
row removes every child row referencing it, and consequently no reachable
store state contains an orphaned child row. -/
theorem claim_C1_cascade_no_orphans :
    (∀ (s : Store) (uid : String) (d : DataUploadRow),
      d ∈ (deleteUser uid s).data_uploads → d.user_id ≠ uid) ∧
    (∀ (s : Store) (uid : String) (m : TrainedModelRow),
      m ∈ (deleteUser uid s).trained_models → m.user_id ≠ uid) ∧
    (∀ (s : Store) (did : String) (t : TimeSeriesRow),
      t ∈ (deleteDataUpload did s).timeseries_data → t.data_upload_id ≠ did) ∧
    (∀ (s : Store) (mid : String) (f : ForecastRow),
      f ∈ (deleteTrainedModel mid s).forecasts → f.model_id ≠ mid) ∧
    (∀ (s : Store) (mid : String) (x : RiskMetricsRow),
      x ∈ (deleteTrainedModel mid s).risk_metrics → x.model_id ≠ mid) ∧
    (∀ (s : Store) (mid : String) (k : KPIReportRow),
      k ∈ (deleteTrainedModel mid s).kpi_reports → k.model_id ≠ mid) ∧
    (∀ s : Store, Reachable s → NoOrphans s) := by
  refine ⟨?_, ?_, ?_, ?_, ?_, ?_, fun s h => noOrphans_reachable h⟩
  · intro s uid d hd
    simp only [deleteUser, List.mem_filter, Bool.not_eq_true',
      beq_eq_false_iff_ne, ne_eq] at hd
    exact hd.2
  · intro s uid m hm
    simp only [deleteUser, List.mem_filter, Bool.not_eq_true',
      beq_eq_false_iff_ne, ne_eq] at hm
    exact hm.2
  · intro s did t ht
    simp only [deleteDataUpload, List.mem_filter, Bool.not_eq_true',
      beq_eq_false_iff_ne, ne_eq] at ht
    exact ht.2
  · intro s mid f hf
    simp only [deleteTrainedModel, List.mem_filter, Bool.not_eq_true',
      beq_eq_false_iff_ne, ne_eq] at hf
    exact hf.2
  · intro s mid x hx
    simp only [deleteTrainedModel, List.mem_filter, Bool.not_eq_true',
      beq_eq_false_iff_ne, ne_eq] at hx
    exact hx.2
  · intro s mid k hk
    simp only [deleteTrainedModel, List.mem_filter, Bool.not_eq_true',
      beq_eq_false_iff_ne, ne_eq] at hk
    exact hk.2

/-- Witness for C1 at a concrete input: the empty store is reachable and
the theorem yields its orphan-freedom. -/
theorem claim_C1_cascade_no_orphans_witness :
    Reachable emptyStore ∧ NoOrphans emptyStore :=
  ⟨Reachable.init,
   claim_C1_cascade_no_orphans.2.2.2.2.2.2 emptyStore Reachable.init⟩

/-- A store seeded with one analyst user, used as the concrete prior state
for the reset-gate scenarios. -/
def c2User : UserRow :=
  { id := "u-1", username := "alice", email := "alice@example.com"
    hashed_password := "hash-a", full_name := none, role := .analyst
    is_active := true, created_at := 0, updated_at := 0 }

/-- An initialized store containing `c2User`. -/
def c2Store : Store :=
  { emptyStore with tables := requiredTables, users := [c2User] }

/-- Counterexample to claim C2 as stated: the input "YES" differs from the
exact literal token "yes", yet `reset_database` lowercases the confirmation
before comparing, so "YES" triggers the destructive drop-then-create: the
prior user row is gone afterwards and the cancelled outcome is not
returned. -/
theorem claim_C2_counterexample :
    "YES" ≠ "yes" ∧
    c2Store.users = [c2User] ∧
    (resetDatabase "YES" c2Store).1.users = [] ∧
    (resetDatabase "YES" c2Store).2 = true := by
  refine ⟨by decide, rfl, ?_, ?_⟩ <;> decide

/-- Claim C2 as amended: the confirmation gate is case-insensitive.  For
every interactive input whose ASCII-lowercased form is not "yes",
`reset_database` performs zero destructive actions — the store is unchanged,
all prior data remains queryable — and returns the cancelled outcome; every
input whose lowercased form is "yes" (for example "YES") triggers the
composed destroy-then-initialize and returns success. -/
theorem claim_C2_reset_gate :
    ∀ (input : String) (s : Store),
      (strLower input ≠ "yes" → resetDatabase input s = (s, false)) ∧
      (strLower input = "yes" → resetDatabase input s = (initDb (dropDb s), true)) := by
  intro input s
  constructor
  · intro h
    have hbeq : (strLower input == "yes") = false := beq_eq_false_iff_ne.mpr h
    simp [resetDatabase, hbeq]
  · intro h
    simp [resetDatabase, h]

/-- Witness for C2 (amended) at a concrete input: "no" cancels the reset
and leaves the seeded store untouched. -/
theorem claim_C2_reset_gate_witness :
    strLower "no" ≠ "yes" ∧ resetDatabase "no" c2Store = (c2Store, false) :=
  ⟨by decide, (claim_C2_reset_gate "no" c2Store).1 (by decide)⟩

theorem ensureTable_mem_of_mem {a t : String} {ts : List String} (h : a ∈ ts) :
    a ∈ ensureTable t ts := by
  unfold ensureTable
  split
  · exact h
  · exact List.mem_append_left _ h

theorem ensureTable_mem_self (t : String) (ts : List String) : t ∈ ensureTable t ts := by
  unfold ensureTable
  split
  · assumption
  · simp

theorem ensureTable_of_mem {t : String} {ts : List String} (h : t ∈ ts) :
    ensureTable t ts = ts := by
  unfold ensureTable
  simp [h]

theorem foldl_ensure_mem_of_mem (l : List String) {ts : List String} {a : String}
    (h : a ∈ ts) : a ∈ l.foldl (fun acc t => ensureTable t acc) ts := by
  induction l generalizing ts with
  | nil => exact h
  | cons hd tl ih => exact ih (ensureTable_mem_of_mem h)

theorem foldl_ensure_all (l : List String) (ts : List String) :
    ∀ t ∈ l, t ∈ l.foldl (fun acc t => ensureTable t acc) ts := by
  induction l generalizing ts with
  | nil => intro t ht; cases ht
  | cons hd tl ih =>
    intro t ht
    rcases List.mem_cons.mp ht with rfl | hmem
    · exact foldl_ensure_mem_of_mem tl (ensureTable_mem_self t ts)
    · exact ih _ t hmem

theorem foldl_ensure_fixed (l : List String) {ts : List String}
    (h : ∀ t ∈ l, t ∈ ts) : l.foldl (fun acc t => ensureTable t acc) ts = ts := by
  induction l with
  | nil => rfl
  | cons hd tl ih =>
    have hhd : ensureTable hd ts = ts := ensureTable_of_mem (h hd (by simp))
    simp only [List.foldl_cons, hhd]
    exact ih (fun t ht => h t (List.mem_cons_of_mem _ ht))

theorem createAllTables_idem (ts : List String) :
    createAllTables (createAllTables ts) = createAllTables ts :=
  foldl_ensure_fixed requiredTables (foldl_ensure_all requiredTables ts)

/-- Claim C6: `init_db` is idempotent — rerunning it on an already
initialized store is not an error (the operation is total) and produces the
identical store, and after any run every registered entity table exists. -/
theorem claim_C6_init_idempotent :
    ∀ s : Store,
      initDb (initDb s) = initDb s ∧
      ∀ t ∈ requiredTables, t ∈ (initDb s).tables := by
  intro s
  constructor
  · simp [initDb, createAllTables_idem]
  · intro t ht
    exact foldl_ensure_all requiredTables s.tables t ht

/-- Witness for C6 at a concrete input: initializing the empty store twice
equals initializing it once, and the `users` table exists afterwards. -/
theorem claim_C6_init_idempotent_witness :
    initDb (initDb emptyStore) = initDb emptyStore ∧
      "users" ∈ (initDb emptyStore).tables :=
  ⟨(claim_C6_init_idempotent emptyStore).1,
   (claim_C6_init_idempotent emptyStore).2 "users" (by decide)⟩

/-- Claim C9: `check_database_connection` is total over a caller-visible
boolean: whatever the outcomes of acquiring the raw connection and of the
trivial `SELECT 1`, it returns a boolean — true exactly when both succeed,
false otherwise — and never lets an error escape (the try block converts
every failure into the value false). -/
theorem claim_C9_check_connection :
    ∀ env : ProbeEnv,
      (checkDatabaseConnection env = true ↔
        env.connect = .ok () ∧ env.execute = .ok ()) ∧
      (checkDatabaseConnection env = true ∨ checkDatabaseConnection env = false) := by
  intro env
  obtain ⟨c, e⟩ := env
  constructor
  · cases c with
    | ok u =>
      cases u
      cases e with
      | ok v => cases v; simp [checkDatabaseConnection, Bind.bind, Except.bind]
      | error err => simp [checkDatabaseConnection, Bind.bind, Except.bind]
    | error err => simp [checkDatabaseConnection, Bind.bind, Except.bind]
  · cases h : checkDatabaseConnection ⟨c, e⟩
    · exact Or.inr rfl
    · exact Or.inl rfl

/-- Claim C3: every unit of work run through `get_db` releases the
connection on every exit path; on an error exit the session is rolled back
and the same error propagates to the caller, so a unit of work that raises
before commit — in particular one that inserts a TrainedModel then raises —
leaves the persistent store with none of its writes visible. -/
theorem claim_C3_get_db_contract :
    ∀ (s : Store) (work : Store → Except DbError (Store × Bool)),
      (getDb s work).2.2 = true ∧
      (∀ e : DbError, work s = .error e → getDb s work = (.error e, s, true)) ∧
      (∀ (r : TrainedModelRow) (e : DbError),
        (getDb s (fun st => (insertTrainedModel r st).bind
          (fun _ => .error e))).2.1 = s ∧
        ∃ e1 : DbError, (getDb s (fun st => (insertTrainedModel r st).bind
          (fun _ => .error e))).1 = .error e1) := by
  intro s work
  refine ⟨?_, ?_, ?_⟩
  · cases hw : work s with
    | ok p => obtain ⟨pending, committed⟩ := p; simp [getDb, hw]
    | error e => simp [getDb, hw]
  · intro e he
    simp [getDb, he]
  · intro r e
    cases hI : insertTrainedModel r s with
    | ok s1 =>
      constructor
      · simp [getDb, hI, Except.bind]
      · exact ⟨e, by simp [getDb, hI, Except.bind]⟩
    | error e2 =>
      constructor
      · simp [getDb, hI, Except.bind]
      · exact ⟨e2, by simp [getDb, hI, Except.bind]⟩

/-- Witness for C3 at a concrete input: a unit of work that raises an
operational error propagates that same error out of `get_db`, the store is
unchanged and the connection is released. -/
theorem claim_C3_get_db_contract_witness :
    getDb emptyStore (fun _ => .error DbError.operationalError) =
      (.error DbError.operationalError, emptyStore, true) :=
  (claim_C3_get_db_contract emptyStore
    (fun _ => .error DbError.operationalError)).2.1 DbError.operationalError rfl

theorem insertUser_err_of_any_username {r : UserRow} {s : Store}
    (h : s.users.any (fun u => u.username == r.username) = true) :
    ∃ e, insertUser r s = .error e := by
  unfold insertUser
  rw [h]
  split
  · exact ⟨_, rfl⟩
  · rw [if_pos rfl]
    exact ⟨_, rfl⟩

theorem insertUser_err_of_any_email {r : UserRow} {s : Store}
    (h : s.users.any (fun u => u.email == r.email) = true) :
    ∃ e, insertUser r s = .error e := by
  unfold insertUser
  rw [h]
  split
  · exact ⟨_, rfl⟩
  · split
    · exact ⟨_, rfl⟩
    · rw [if_pos rfl]
      exact ⟨_, rfl⟩

theorem runInsertUser_fails_of_any_username {r : UserRow} {s : Store}
    (h : s.users.any (fun u => u.username == r.username) = true) :
    runInsertUser r s = (s, false) := by
  obtain ⟨e, he⟩ := insertUser_err_of_any_username h
  unfold runInsertUser
  rw [he]

theorem runInsertUser_fails_of_any_email {r : UserRow} {s : Store}
    (h : s.users.any (fun u => u.email == r.email) = true) :
    runInsertUser r s = (s, false) := by
  obtain ⟨e, he⟩ := insertUser_err_of_any_email h
  unfold runInsertUser
  rw [he]

/-- Claim C4: username and email are store-enforced unique.  If the store
holds exactly one user row with a given username (resp. email), inserting a
second user carrying that same username (resp. email) fails the insertion
and afterwards the store still holds exactly that one row. -/
theorem claim_C4_user_uniqueness :
    ∀ (s : Store) (r : UserRow),
      ((s.users.filter (fun u => u.username == r.username)).length = 1 →
        runInsertUser r s = (s, false) ∧
        ((runInsertUser r s).1.users.filter
          (fun u => u.username == r.username)).length = 1) ∧
      ((s.users.filter (fun u => u.email == r.email)).length = 1 →
        runInsertUser r s = (s, false) ∧
        ((runInsertUser r s).1.users.filter
          (fun u => u.email == r.email)).length = 1) := by
  intro s r
  constructor
  · intro hcount
    have hpos : 0 < (s.users.filter (fun u => u.username == r.username)).length := by
      omega
    obtain ⟨x, hx⟩ := List.exists_mem_of_length_pos hpos
    have hany : s.users.any (fun u => u.username == r.username) = true :=
      List.any_eq_true.mpr ⟨x, (List.mem_filter.mp hx).1, (List.mem_filter.mp hx).2⟩
    have hrun := runInsertUser_fails_of_any_username hany
    exact ⟨hrun, by rw [hrun]; exact hcount⟩
  · intro hcount
    have hpos : 0 < (s.users.filter (fun u => u.email == r.email)).length := by
      omega
    obtain ⟨x, hx⟩ := List.exists_mem_of_length_pos hpos
    have hany : s.users.any (fun u => u.email == r.email) = true :=
      List.any_eq_true.mpr ⟨x, (List.mem_filter.mp hx).1, (List.mem_filter.mp hx).2⟩
    have hrun := runInsertUser_fails_of_any_email hany
    exact ⟨hrun, by rw [hrun]; exact hcount⟩

/-- A second user row that reuses `c2User`'s username with fresh id and
email, for the uniqueness witness. -/
def c4Dup : UserRow :=
  { id := "u-2", username := "alice", email := "alice2@example.com"
    hashed_password := "hash-b", full_name := none, role := .viewer
    is_active := true, created_at := 1, updated_at := 1 }

/-- Witness for C4 at a concrete input: inserting a second "alice" into the
seeded store fails and leaves exactly one "alice" row. -/
theorem claim_C4_user_uniqueness_witness :
    (c2Store.users.filter (fun u => u.username == c4Dup.username)).length = 1 ∧
    runInsertUser c4Dup c2Store = (c2Store, false) ∧
    ((runInsertUser c4Dup c2Store).1.users.filter
      (fun u => u.username == c4Dup.username)).length = 1 :=
  ⟨by decide,
   ((claim_C4_user_uniqueness c2Store c4Dup).1 (by decide)).1,
   ((claim_C4_user_uniqueness c2Store c4Dup).1 (by decide)).2⟩

theorem insertUser_ok_of_checks {r : UserRow} {s : Store}
    (h1 : s.users.any (fun u => u.id == r.id) = false)
    (h2 : s.users.any (fun u => u.username == r.username) = false)
    (h3 : s.users.any (fun u => u.email == r.email) = false) :
    insertUser r s = .ok { s with users := s.users ++ [r] } := by
  unfold insertUser
  rw [h1, h2, h3]
  rfl

theorem createAdminUserRun_creates {freshId : String} {hash : String → String}
    {now : Nat} {s : Store}
    (hfind : s.users.find? (fun u => u.username == "admin") = none)
    (hins : insertUser (adminRow freshId hash now) s =
      .ok { s with users := s.users ++ [adminRow freshId hash now] }) :
    createAdminUserRun freshId hash now false s =
      (.ok (some (adminRow freshId hash now)),
       { s with users := s.users ++ [adminRow freshId hash now] }, true) := by
  unfold createAdminUserRun
  rw [hfind]
  simp only [Bool.false_eq_true, if_false]
  rw [hins]

theorem createAdminUserRun_existing {freshId : String} {hash : String → String}
    {now : Nat} {commitFails : Bool} {s : Store} {existing : UserRow}
    (hfind : s.users.find? (fun u => u.username == "admin") = some existing) :
    createAdminUserRun freshId hash now commitFails s = (.ok (some existing), s, true) := by
  unfold createAdminUserRun
  rw [hfind]

theorem find_admin_append {l : List UserRow} {row : UserRow}
    (hfind : l.find? (fun u => u.username == "admin") = none)
    (hrow : (row.username == "admin") = true) :
    (l ++ [row]).find? (fun u => u.username == "admin") = some row := by
  rw [List.find?_append, hfind]
  simp [List.find?, hrow]

/-- Claim C7: the bootstrap seed operation is idempotent.  Starting from a
store with no "admin" user (and no clash on the fresh uuid or the fixed
admin email), the first call creates and returns the admin row — with
role=admin and active=true — and the second call finds that same row and
returns it unchanged, creating nothing: both calls yield the same user
identifier and exactly one "admin" row exists. -/
theorem claim_C7_bootstrap_idempotent :
    ∀ (id1 id2 : String) (hash : String → String) (now1 now2 : Nat) (s : Store),
      s.users.find? (fun u => u.username == "admin") = none →
      s.users.all (fun u => !(u.id == id1)) = true →
      s.users.all (fun u => !(u.email == "admin@financialanalytics.local")) = true →
      ∃ row : UserRow,
        row.id = id1 ∧ row.role = .admin ∧ row.is_active = true ∧
        (createAdminUserRun id1 hash now1 false s).1 = .ok (some row) ∧
        (createAdminUserRun id2 hash now2 false
          ((createAdminUserRun id1 hash now1 false s).2.1)).1 = .ok (some row) ∧
        (createAdminUserRun id2 hash now2 false
          ((createAdminUserRun id1 hash now1 false s).2.1)).2.1 =
          (createAdminUserRun id1 hash now1 false s).2.1 ∧
        (((createAdminUserRun id1 hash now1 false s).2.1).users.filter
          (fun u => u.username == "admin")).length = 1 := by
  intro id1 id2 hash now1 now2 s hfind hid hemail
  have hanyId : s.users.any (fun u => u.id == (adminRow id1 hash now1).id) = false := by
    rw [List.any_eq_false]
    intro u hu
    have := List.all_eq_true.mp hid u hu
    simpa [adminRow] using this
  have hanyU : s.users.any
      (fun u => u.username == (adminRow id1 hash now1).username) = false := by
    rw [List.any_eq_false]
    intro u hu
    have := List.find?_eq_none.mp hfind u hu
    simpa [adminRow] using this
  have hanyE : s.users.any
      (fun u => u.email == (adminRow id1 hash now1).email) = false := by
    rw [List.any_eq_false]
    intro u hu
    have := List.all_eq_true.mp hemail u hu
    simpa [adminRow] using this
  have hins := insertUser_ok_of_checks hanyId hanyU hanyE
  have h1 := createAdminUserRun_creates hfind hins
  have hfind2 : (s.users ++ [adminRow id1 hash now1]).find?
      (fun u => u.username == "admin") = some (adminRow id1 hash now1) :=
    find_admin_append hfind (by simp [adminRow])
  have hfilter : s.users.filter (fun u => u.username == "admin") = [] := by
    rw [List.filter_eq_nil_iff]
    intro u hu
    exact List.find?_eq_none.mp hfind u hu
  have h2 := @createAdminUserRun_existing id2 hash now2 false
    { s with users := s.users ++ [adminRow id1 hash now1] }
    (adminRow id1 hash now1) hfind2
  refine ⟨adminRow id1 hash now1, rfl, rfl, rfl, ?_, ?_, ?_, ?_⟩
  · rw [h1]
  · rw [h1]
    dsimp only
    rw [h2]
  · rw [h1]
    dsimp only
    rw [h2]
  · rw [h1]
    simp [List.filter_append, hfilter, adminRow]

/-- A sample injected hashing capability for the concrete scenarios. -/
def hashSample : String → String := fun p => String.append "bcrypt-sample-" p

/-- The concrete admin row the bootstrap builds in the witness scenarios. -/
def adminRowSample : UserRow := adminRow "uuid-admin-1" hashSample 0

/-- Witness for C7 at a concrete input: bootstrapping the empty store. -/
theorem claim_C7_bootstrap_idempotent_witness :
    ∃ row : UserRow,
      row.id = "uuid-admin-1" ∧ row.role = .admin ∧ row.is_active = true ∧
      (createAdminUserRun "uuid-admin-1" hashSample 0 false emptyStore).1 =
        .ok (some row) ∧
      (createAdminUserRun "uuid-admin-2" hashSample 1 false
        ((createAdminUserRun "uuid-admin-1" hashSample 0 false emptyStore).2.1)).1 =
        .ok (some row) ∧
      (createAdminUserRun "uuid-admin-2" hashSample 1 false
        ((createAdminUserRun "uuid-admin-1" hashSample 0 false emptyStore).2.1)).2.1 =
        (createAdminUserRun "uuid-admin-1" hashSample 0 false emptyStore).2.1 ∧
      (((createAdminUserRun "uuid-admin-1" hashSample 0 false emptyStore).2.1).users.filter
        (fun u => u.username == "admin")).length = 1 :=
  claim_C7_bootstrap_idempotent "uuid-admin-1" "uuid-admin-2" hashSample 0 1
    emptyStore rfl rfl rfl

/-- Counterexample to claim C8 as stated: with the empty store and a commit
that fails, `create_admin_user` returns None (an ok outcome) rather than
re-raising the error — the failure is rolled back but swallowed. -/
theorem claim_C8_counterexample :
    (createAdminUserRun "uuid-admin-1" hashSample 0 true emptyStore).1 = .ok none ∧
    (createAdminUserRun "uuid-admin-1" hashSample 0 true emptyStore).2.1 = emptyStore ∧
    ¬ ∃ e : DbError,
      (createAdminUserRun "uuid-admin-1" hashSample 0 true emptyStore).1 = .error e := by
  refine ⟨rfl, rfl, ?_⟩
  rintro ⟨e, he⟩
  rw [show (createAdminUserRun "uuid-admin-1" hashSample 0 true emptyStore).1 =
    Except.ok none from rfl] at he
  exact Except.noConfusion he

/-- Claim C8 as amended: `get_db` re-raises after rollback and logging, but
`create_admin_user` does not propagate: a failure while creating the
bootstrap admin user is rolled back — the persistent store is unchanged, no
half-created user row is visible — and the operation logs the failure and
returns None (an ok outcome) to its caller instead of re-raising. -/
theorem claim_C8_create_admin_swallows :
    ∀ (freshId : String) (hash : String → String) (now : Nat) (s : Store),
      (createAdminUserRun freshId hash now true s).2.1 = s ∧
      (createAdminUserRun freshId hash now true s).1.isOk = true := by
  intro freshId hash now s
  constructor
  · unfold createAdminUserRun
    split
    · rfl
    · rfl
  · unfold createAdminUserRun
    split
    · rfl
    · rfl

/-- Claim C10: the reserved bootstrap username is the hard-coded literal
"admin", and whenever `create_admin_user` creates the bootstrap principal
the created row carries the fixed plaintext password "admin123" run through
the injected hashing capability and the fixed email
"admin@financialanalytics.local" — for every choice of fresh id, hashing
capability, clock, commit outcome and prior store. -/
theorem claim_C10_fixed_credentials :
    ∀ (freshId : String) (hash : String → String) (now : Nat) (commitFails : Bool)
      (s : Store) (row : UserRow),
      s.users.find? (fun u => u.username == "admin") = none →
      (createAdminUserRun freshId hash now commitFails s).1 = .ok (some row) →
      row.username = "admin" ∧
      row.email = "admin@financialanalytics.local" ∧
      row.hashed_password = hash "admin123" ∧
      row.full_name = some "System Administrator" ∧
      row.role = .admin ∧ row.is_active = true := by
  intro freshId hash now commitFails s row hfind hres
  unfold createAdminUserRun at hres
  rw [hfind] at hres
  cases commitFails with
  | true => simp at hres
  | false =>
    simp only [Bool.false_eq_true, if_false] at hres
    cases hI : insertUser (adminRow freshId hash now) s with
    | ok s1 =>
      rw [hI] at hres
      simp only at hres
      have hrow : adminRow freshId hash now = row := by
        exact Option.some.injEq _ _ ▸ (Except.ok.injEq _ _).mp hres ▸ rfl
      subst hrow
      exact ⟨rfl, rfl, rfl, rfl, rfl, rfl⟩
    | error e =>
      rw [hI] at hres
      simp at hres

/-- Witness for C10 at a concrete input: bootstrapping the empty store with
the sample hashing capability yields exactly the fixed credentials. -/
theorem claim_C10_fixed_credentials_witness :
    emptyStore.users.find? (fun u => u.username == "admin") = none ∧
    (createAdminUserRun "uuid-admin-1" hashSample 0 false emptyStore).1 =
      .ok (some adminRowSample) ∧
    (adminRowSample.username = "admin" ∧
     adminRowSample.email = "admin@financialanalytics.local" ∧
     adminRowSample.hashed_password = hashSample "admin123" ∧
     adminRowSample.full_name = some "System Administrator" ∧
     adminRowSample.role = .admin ∧ adminRowSample.is_active = true) :=
  ⟨rfl, rfl,
   claim_C10_fixed_credentials "uuid-admin-1" hashSample 0 false emptyStore
     adminRowSample rfl rfl⟩

/-- The owner user of the duplicate-version scenario. -/
def c5User : UserRow :=
  { id := "u-1", username := "owner", email := "owner@example.com"
    hashed_password := "hash-o", full_name := none, role := .analyst
    is_active := true, created_at := 0, updated_at := 0 }

/-- A trained-model row for owner "u-1" named "revenue-model" with the
column-default version 1; only the primary key varies. -/
def c5Model (mid : String) : TrainedModelRow :=
  { id := mid, user_id := "u-1", model_name := "revenue-model"
    model_type := .arima, forecast_type := .revenue, version := 1
    model_path := "models/revenue-model.pkl", mae := none, rmse := none
    r2_score := none, mape := none, training_data_count := none
    model_params := none, is_active := true, created_at := 0, updated_at := 0 }

/-- The store after inserting the owner and the first model row. -/
def c5Mid : Store :=
  { emptyStore with users := [c5User], trained_models := [c5Model "m-1"] }

/-- The store after also inserting the second model row with the same
(owner, model_name, version) triple. -/
def c5Dup : Store :=
  { emptyStore with
    users := [c5User]
    trained_models := [c5Model "m-1", c5Model "m-2"] }

/-- Counterexample to claim C5 as stated: the schema declares no uniqueness
over (owner, model_name, version) — `__table_args__` holds only non-unique
indexes — so the system reaches a store holding two TrainedModel rows with
the identical ("u-1", "revenue-model", 1) triple. -/
theorem claim_C5_counterexample :
    Reachable c5Dup ∧
    (c5Dup.trained_models.filter (fun m =>
      m.user_id == "u-1" && m.model_name == "revenue-model" &&
        m.version == 1)).length = 2 := by
  constructor
  · have h1 : Reachable { emptyStore with users := [c5User] } :=
      Reachable.step Reachable.init (Step.insUser c5User (by decide))
    have h2 : Reachable c5Mid :=
      Reachable.step h1 (Step.insModel (c5Model "m-1") (by decide))
    exact Reachable.step h2 (Step.insModel (c5Model "m-2") (by decide))
  · decide

/-- Claim C5 as amended: the store enforces no uniqueness on
(owner, model_name, version) and assigns no versions itself (the column
default is 1; no retrain logic exists in this slice): whenever one model row
inserts successfully, a second row duplicating its (owner, model_name,
version) triple — with a fresh primary key — also inserts successfully, and
the store then holds at least two rows with that triple. -/
theorem claim_C5_version_not_unique :
    ∀ (s s1 : Store) (r1 r2 : TrainedModelRow),
      insertTrainedModel r1 s = .ok s1 →
      s1.trained_models.all (fun m => !(m.id == r2.id)) = true →
      r2.user_id = r1.user_id → r2.model_name = r1.model_name →
      r2.version = r1.version →
      ∃ s2, insertTrainedModel r2 s1 = .ok s2 ∧
        2 ≤ (s2.trained_models.filter (fun m =>
          m.user_id == r1.user_id && m.model_name == r1.model_name &&
            m.version == r1.version)).length := by
  intro s s1 r1 r2 h1 hfresh hu hn hv
  obtain ⟨hfk, rfl⟩ := insertTrainedModel_ok h1
  have hpk : ((s.trained_models ++ [r1]).any (fun m => m.id == r2.id)) = false := by
    rw [List.any_eq_false]
    intro m hm
    have := List.all_eq_true.mp hfresh m hm
    simpa using this
  have hfk2 : (s.users.any (fun u => u.id == r2.user_id)) = true := by
    rw [hu]; exact hfk
  have h2 : insertTrainedModel r2 { s with trained_models := s.trained_models ++ [r1] } =
      .ok { s with trained_models := (s.trained_models ++ [r1]) ++ [r2] } := by
    unfold insertTrainedModel
    rw [hpk, hfk2]
    rfl
  refine ⟨_, h2, ?_⟩
  have hr1 : (r1.user_id == r1.user_id && r1.model_name == r1.model_name &&
      r1.version == r1.version) = true := by simp
  have hr2 : (r2.user_id == r1.user_id && r2.model_name == r1.model_name &&
      r2.version == r1.version) = true := by simp [hu, hn, hv]
  simp [List.filter_append, hr1, hr2]

/-- Witness for C5 (amended) at a concrete input: the duplicate
"revenue-model" scenario. -/
theorem claim_C5_version_not_unique_witness :
    insertTrainedModel (c5Model "m-1") { emptyStore with users := [c5User] } =
      .ok c5Mid ∧
    ∃ s2, insertTrainedModel (c5Model "m-2") c5Mid = .ok s2 ∧
      2 ≤ (s2.trained_models.filter (fun m =>
        m.user_id == (c5Model "m-1").user_id &&
          m.model_name == (c5Model "m-1").model_name &&
          m.version == (c5Model "m-1").version)).length :=
  ⟨by decide,
   claim_C5_version_not_unique { emptyStore with users := [c5User] } c5Mid
     (c5Model "m-1") (c5Model "m-2") (by decide) (by decide) rfl rfl rfl⟩

end FinRisk
